import Mathlib

/-!
Verification of the offer synchronization engine of the otomoto-scraper
repository against its natural-language specification.

The Python source is shallowly embedded:
* a pandas `DataFrame` holding the offer store becomes a `List OfferRow`;
* `datetime.now()` becomes an explicit `now : Nat` argument;
* network fetches and HTML parsing become function arguments returning
  `Option`/`Except` values (the thread-pool `Scraper` converts an exception
  raised by a unit of work into a `none` slot);
* `save_offers` keeps the source's sort-by-`last_seen`-descending behaviour,
  realised with the stable `List.insertionSort` (pandas' unstable sort is
  unspecified on ties, so any sorted permutation is a faithful refinement);
* Python string operations `sub in s` and `s.split(sep)[0]` are embedded as
  executable functions on character lists.
-/

/-- One row of the offer store (`database.py` keeps these as DataFrame rows
with columns url / first_seen / last_seen / is_active / search_url plus
arbitrary scraped attribute columns). -/
structure OfferRow where
  url : String
  first_seen : Nat
  last_seen : Nat
  is_active : Bool
  search_url : String
  attrs : List (String × String)
deriving DecidableEq, Repr

/-- A freshly scraped offer before lifecycle stamping: the attribute mapping
returned by `get_offer` together with the url attached in `_scrape_offers`. -/
structure NewOffer where
  url : String
  attrs : List (String × String)
deriving DecidableEq, Repr

/-- The statistics dictionary assembled by `OfferManager._update_database`. -/
structure UpdateStats where
  total_found : Nat
  new_offers : Nat
  updated_offers : Nat
  inactive_offers : Nat
  failed_scrapes : Nat
deriving DecidableEq, Repr

/-! ### Python string helpers (for `_generate_page_urls`) -/

/-- `leadsWith sub s` is true when the character list `s` starts with `sub`. -/
def leadsWith : List Char → List Char → Bool
  | [], _ => true
  | _ :: _, [] => false
  | c :: cs, d :: ds => c = d && leadsWith cs ds

/-- `hasSub sub s`: does `s` contain `sub` as a contiguous sublist?
Embeds Python's `sub in s` on strings. -/
def hasSub (sub : List Char) : List Char → Bool
  | [] => leadsWith sub []
  | c :: rest => leadsWith sub (c :: rest) || hasSub sub rest

/-- `beforeFirst s sep`: the part of `s` before the first occurrence of
`sep`, or all of `s` when `sep` does not occur.  Embeds Python's
`s.split(sep)[0]` for a non-empty separator. -/
def beforeFirst : List Char → List Char → List Char
  | [], _ => []
  | c :: rest, sep =>
    if leadsWith sep (c :: rest) then [] else c :: beforeFirst rest sep

/-- Python `sub in s` on `String`. -/
def strHasSub (s sub : String) : Bool := hasSub sub.data s.data

/-- Python `s.split(sep)[0]` on `String`. -/
def pySplitHead (s sep : String) : String := String.mk (beforeFirst s.data sep.data)

/-! ### Persisted offer store (`database.py`) -/

/-- Sort key of `save_offers`: `sort_values("last_seen", ascending=False)`. -/
def lastSeenDesc (a b : OfferRow) : Prop := b.last_seen ≤ a.last_seen

instance : DecidableRel lastSeenDesc :=
  fun a b => inferInstanceAs (Decidable (b.last_seen ≤ a.last_seen))

instance : IsTotal OfferRow lastSeenDesc :=
  ⟨fun a b => Nat.le_total b.last_seen a.last_seen⟩

instance : IsTrans OfferRow lastSeenDesc :=
  ⟨fun _ _ _ hab hbc => Nat.le_trans hbc hab⟩

/-- `OfferDatabase.save_offers`: the store is persisted sorted by
`last_seen` descending; the saved row multiset is unchanged. -/
def save_offers (offers : List OfferRow) : List OfferRow :=
  List.insertionSort lastSeenDesc offers

/-- `OfferDatabase.get_urls_for_search_url`: the set of urls of rows whose
`search_url` equals the given query (`set(...)` becomes `dedup`). -/
def get_urls_for_search_url (offers : List OfferRow) (search_url : String) : List String :=
  ((offers.filter (fun r => decide (r.search_url = search_url))).map (fun r => r.url)).dedup

/-- `OfferDatabase.get_all_urls`: the set of all urls in the store. -/
def get_all_urls (offers : List OfferRow) : List String :=
  (offers.map (fun r => r.url)).dedup

/-- The `missing_urls` computed in `mark_inactive`: urls previously recorded
for `search_url` minus the urls observed in the current search. -/
def missing_urls_for (offers : List OfferRow) (offer_urls : List String)
    (search_url : String) : List String :=
  (get_urls_for_search_url offers search_url).filter (fun u => decide (u ∉ offer_urls))

/-- `OfferDatabase.mark_inactive`: rows whose url was previously recorded for
`search_url` but is absent from `offer_urls` get `is_active := false` and
`last_seen := now`; returns the new store and the number of missing urls. -/
def mark_inactive (offers : List OfferRow) (offer_urls : List String)
    (search_url : String) (now : Nat) : List OfferRow × Nat :=
  let missing_urls := missing_urls_for offers offer_urls search_url
  if missing_urls.isEmpty then (offers, 0)
  else
    (save_offers (offers.map (fun r =>
        if r.url ∈ missing_urls then { r with is_active := false, last_seen := now } else r)),
     missing_urls.length)

/-- The metadata stamping in `add_new_offers`:
`first_seen = last_seen = now`, `is_active = True`, `search_url` set. -/
def stampNewOffer (o : NewOffer) (search_url : String) (now : Nat) : OfferRow :=
  { url := o.url, first_seen := now, last_seen := now, is_active := true,
    search_url := search_url, attrs := o.attrs }

/-- The `truly_new_urls` local of `add_new_offers`: the url set of the input
batch minus the url set already in the store. -/
def truly_new_urls_for (offers : List OfferRow) (new_offers : List NewOffer) : List String :=
  ((new_offers.map (fun o => o.url)).dedup).filter
    (fun u => decide (u ∉ get_all_urls offers))

/-- The `filtered_new_offers` local of `add_new_offers`: batch rows whose url
is truly new, stamped with the lifecycle metadata. -/
def stamped_new_offers (offers : List OfferRow) (new_offers : List NewOffer)
    (search_url : String) (now : Nat) : List OfferRow :=
  (new_offers.filter (fun o => decide (o.url ∈ truly_new_urls_for offers new_offers))).map
    (fun o => stampNewOffer o search_url now)

/-- `OfferDatabase.add_new_offers`: rows of the input batch whose url is not
already anywhere in the store are stamped and appended; returns the new store
and the number of appended rows. -/
def add_new_offers (offers : List OfferRow) (new_offers : List NewOffer)
    (search_url : String) (now : Nat) : List OfferRow × Nat :=
  if new_offers.isEmpty then (offers, 0)
  else if (truly_new_urls_for offers new_offers).isEmpty then (offers, 0)
  else
    (save_offers (offers ++ stamped_new_offers offers new_offers search_url now),
     (stamped_new_offers offers new_offers search_url now).length)

/-- `OfferDatabase.update_existing_offers`: every row whose url occurs in
`updated_urls` gets `last_seen := now` and `is_active := true`; the returned
count is the number of matching rows (`mask.sum()`). -/
def update_existing_offers (offers : List OfferRow) (updated_urls : List String)
    (now : Nat) : List OfferRow × Nat :=
  if updated_urls.isEmpty then (offers, 0)
  else
    (save_offers (offers.map (fun r =>
        if r.url ∈ updated_urls then { r with last_seen := now, is_active := true } else r)),
     (offers.filter (fun r => decide (r.url ∈ updated_urls))).length)

/-- Rank used by `remove_duplicates`' sort: `is_active` descending, so active
rows (rank 0) come before inactive ones (rank 1). -/
def dupRank (r : OfferRow) : Nat := if r.is_active then 0 else 1

/-- The lexicographic sort order of `remove_duplicates`:
`sort_values(["url", "is_active", "last_seen"], ascending=[True, False, False])`. -/
def dupLE (a b : OfferRow) : Prop :=
  a.url.data < b.url.data ∨
    (a.url = b.url ∧
      (dupRank a < dupRank b ∨ (dupRank a = dupRank b ∧ b.last_seen ≤ a.last_seen)))

instance : DecidableRel dupLE :=
  fun a b => inferInstanceAs (Decidable (a.url.data < b.url.data ∨
    (a.url = b.url ∧
      (dupRank a < dupRank b ∨ (dupRank a = dupRank b ∧ b.last_seen ≤ a.last_seen)))))

/-- `drop_duplicates(subset=["url"], keep="first")`: keep the first row for
each url, walking the list left to right. -/
def dropDupsByUrl : List OfferRow → List String → List OfferRow
  | [], _ => []
  | r :: rest, seen =>
    if r.url ∈ seen then dropDupsByUrl rest seen
    else r :: dropDupsByUrl rest (r.url :: seen)

/-- The `offers_sorted` local of `remove_duplicates`:
`sort_values(["url", "is_active", "last_seen"], ascending=[True, False, False])`. -/
def rd_sorted (offers : List OfferRow) : List OfferRow :=
  List.insertionSort dupLE offers

/-- The `offers_deduplicated` local of `remove_duplicates`:
`drop_duplicates(subset=["url"], keep="first")` on the sorted rows. -/
def rd_dedup (offers : List OfferRow) : List OfferRow :=
  dropDupsByUrl (rd_sorted offers) []

/-- The `offers_final` local of `remove_duplicates`: the deduplicated rows
re-sorted by `last_seen` descending. -/
def rd_final (offers : List OfferRow) : List OfferRow :=
  List.insertionSort lastSeenDesc (rd_dedup offers)

/-- `OfferDatabase.remove_duplicates`: sort by (url asc, is_active desc,
last_seen desc), keep the first row per url, sort the result by last_seen
descending, and save only when something was removed. -/
def remove_duplicates (offers : List OfferRow) : List OfferRow × Nat :=
  if offers.isEmpty then (offers, 0)
  else if 0 < offers.length - (rd_final offers).length then
    (save_offers (rd_final offers), offers.length - (rd_final offers).length)
  else (offers, offers.length - (rd_final offers).length)

/-! ### Fetch executor (`scrapers/scraper.py`) -/

/-- The outcome of one submitted future: the unit of work either returns a
value (`Except.ok`) or raises (`Except.error`); `future.result()` re-raises
and the `except` clause appends `None`. -/
def runWork {α : Type} (work : String → Except Unit α) (url : String) : Option α :=
  match work url with
  | Except.ok r => some r
  | Except.error _ => none

/-- The value of one `Scraper.scrape` call: the results list (aligned with
the input urls) and the trace of inputs submitted to the pool, one future
per url in order. -/
structure ScrapeRun (α : Type) where
  results : List (Option α)
  attempts : List String
deriving Repr

/-- `Scraper.scrape`: submit one future per url in input order, collect
`future.result()` in the same order, converting a raised exception into a
`none` slot. -/
def Scraper.scrape {α : Type} (work : String → Except Unit α) (urls : List String) :
    ScrapeRun α :=
  { results := urls.map (runWork work), attempts := urls }

/-! ### Listing discovery (`scrapers/otomoto_scrapers.py`, `offer_manager.py`) -/

/-- `get_offer_pages`: the whole fetch-and-parse of the pagination control is
one `try` block, modelled by its `Except` outcome; on any failure the page
count defaults to 1. -/
def get_offer_pages (page_parse : Except Unit Nat) : Nat :=
  match page_parse with
  | Except.ok n => n
  | Except.error _ => 1

/-- The page url built for page number `page` in `_generate_page_urls`. -/
def mkPageUrl (base_url : String) (page : Nat) : String :=
  if strHasSub base_url "?" then base_url ++ "&page=" ++ toString page
  else base_url ++ "?page=" ++ toString page

/-- The base url computed by `_generate_page_urls`:
`search_url.split("&page=")[0].split("?page=")[0]` when `"page="` occurs in
the url, otherwise the url itself. -/
def pageBaseUrl (search_url : String) : String :=
  if strHasSub search_url "page=" then
    pySplitHead (pySplitHead search_url "&page=") "?page="
  else search_url

/-- `OfferManager._generate_page_urls`: one url per page number 1..num_pages. -/
def generate_page_urls (search_url : String) (num_pages : Nat) : List String :=
  (List.range num_pages).map (fun i => mkPageUrl (pageBaseUrl search_url) (i + 1))

/-! ### Synchronization orchestrator (`offer_manager.py`) -/

/-- `OfferManager._scrape_offers`: run the detail fetch over the links
(`fetch` is the composite of `get_offer` and the exception-to-`none`
conversion of the `Scraper`) and keep only truthy results, attaching the url. -/
def scrape_offers (offer_links : List String)
    (fetch : String → Option (List (String × String))) : List NewOffer :=
  offer_links.filterMap (fun u =>
    match fetch u with
    | some d => if d.isEmpty then none else some { url := u, attrs := d }
    | none => none)

/-- The `if scraped_offers:` guarded `add_new_offers` call in
`_update_database` (store and `new_offers` count). -/
def ud_after_add (offers : List OfferRow) (scraped_offers : List NewOffer)
    (search_url : String) (now : Nat) : List OfferRow × Nat :=
  if scraped_offers.isEmpty then (offers, 0)
  else add_new_offers offers scraped_offers search_url now

/-- The `current_existing_urls` local of `_update_database`: discovered links
present in the url set re-read from the store *after* `add_new_offers`. -/
def ud_current_existing (offers1 : List OfferRow) (all_offer_links : List String) :
    List String :=
  all_offer_links.filter (fun u => decide (u ∈ get_all_urls offers1))

/-- The `if current_existing_urls:` guarded `update_existing_offers` call in
`_update_database` (store and `updated_offers` count). -/
def ud_after_update (offers1 : List OfferRow) (all_offer_links : List String)
    (now : Nat) : List OfferRow × Nat :=
  let current_existing_urls := ud_current_existing offers1 all_offer_links
  if current_existing_urls.isEmpty then (offers1, 0)
  else update_existing_offers offers1 current_existing_urls now

/-- `OfferManager._update_database`: add the scraped offers, re-read the url
set, refresh every discovered link present in that (post-add) url set, then
deactivate links missing from the current search. -/
def update_database (offers : List OfferRow) (search_url : String)
    (all_offer_links : List String) (scraped_offers : List NewOffer)
    (new_offer_links : List String) (now : Nat) : List OfferRow × UpdateStats :=
  let failed_scrapes := new_offer_links.length - scraped_offers.length
  let afterAdd := ud_after_add offers scraped_offers search_url now
  let afterUpdate := ud_after_update afterAdd.1 all_offer_links now
  let afterInactive := mark_inactive afterUpdate.1 all_offer_links search_url now
  (afterInactive.1,
   { total_found := all_offer_links.length, new_offers := afterAdd.2,
     updated_offers := afterUpdate.2, inactive_offers := afterInactive.2,
     failed_scrapes := failed_scrapes })

/-- `OfferManager.update_offers` after discovery: `offer_links` is the
discovery result, `fetch` the detail-fetch collaborator; only links not yet
in the store are fetched. -/
def update_offers (offers : List OfferRow) (search_url : String)
    (offer_links : List String) (fetch : String → Option (List (String × String)))
    (now : Nat) : List OfferRow × UpdateStats :=
  let existing_urls := get_all_urls offers
  let new_offer_links := offer_links.filter (fun u => decide (u ∉ existing_urls))
  let scraped_offers :=
    if new_offer_links.isEmpty then [] else scrape_offers new_offer_links fetch
  update_database offers search_url offer_links scraped_offers new_offer_links now

/-! ### Raw tabular loading (`load_offers` / `_create_empty_dataframe`) -/

/-- A cell of the raw tabular store. -/
inductive Cell where
  | null : Cell
  | boolVal : Bool → Cell
  | timeVal : Nat → Cell
  | strVal : String → Cell
deriving DecidableEq, Repr

/-- A raw tabular frame: a column list and rows of column/cell pairs. -/
structure RawFrame where
  columns : List String
  rows : List (List (String × Cell))
deriving DecidableEq, Repr

/-- The lifecycle columns `load_offers` guarantees to exist. -/
def required_columns : List String :=
  ["url", "first_seen", "last_seen", "is_active", "search_url"]

/-- The default backfilled for a missing lifecycle column in `load_offers`. -/
def default_cell_for (col : String) (now : Nat) : Cell :=
  if col = "is_active" then Cell.boolVal true
  else if col = "first_seen" ∨ col = "last_seen" then Cell.timeVal now
  else Cell.null

/-- Appending a column with a constant value to every row. -/
def add_column (df : RawFrame) (col : String) (v : Cell) : RawFrame :=
  { columns := df.columns ++ [col], rows := df.rows.map (fun row => row ++ [(col, v)]) }

/-- The column-backfill loop of `load_offers`. -/
def ensure_required_columns (df : RawFrame) (now : Nat) : RawFrame :=
  required_columns.foldl (fun acc col =>
    if col ∈ acc.columns then acc else add_column acc col (default_cell_for col now)) df

/-- `OfferDatabase._create_empty_dataframe`. -/
def create_empty_dataframe : RawFrame :=
  { columns := ["url", "first_seen", "last_seen", "is_active", "search_url",
      "Tytuł", "Cena", "Waluta", "Marka pojazdu", "Model pojazdu", "Rok produkcji",
      "Przebieg", "Pojemność skokowa", "Moc", "Rodzaj paliwa", "Skrzynia biegów",
      "Typ nadwozia", "Lokalizacja", "Opis", "Szczegóły ceny"],
    rows := [] }

/-- `OfferDatabase.load_offers`: missing file or failed read yields the empty
frame; a successful read is backfilled with the required columns. -/
def load_offers (file_exists : Bool) (read_result : Except Unit RawFrame)
    (now : Nat) : RawFrame :=
  if file_exists then
    match read_result with
    | Except.ok df => ensure_required_columns df now
    | Except.error _ => create_empty_dataframe
  else create_empty_dataframe

/-! ### Shared helper lemmas -/

instance : IsTotal OfferRow dupLE := ⟨by
  intro a b
  rcases lt_trichotomy a.url.data b.url.data with h | h | h
  · exact Or.inl (Or.inl h)
  · have hu : a.url = b.url := String.ext h
    rcases Nat.lt_trichotomy (dupRank a) (dupRank b) with h2 | h2 | h2
    · exact Or.inl (Or.inr ⟨hu, Or.inl h2⟩)
    · rcases Nat.le_total b.last_seen a.last_seen with h3 | h3
      · exact Or.inl (Or.inr ⟨hu, Or.inr ⟨h2, h3⟩⟩)
      · exact Or.inr (Or.inr ⟨hu.symm, Or.inr ⟨h2.symm, h3⟩⟩)
    · exact Or.inr (Or.inr ⟨hu.symm, Or.inl h2⟩)
  · exact Or.inr (Or.inl h)⟩

instance : IsTrans OfferRow dupLE := ⟨by
  intro a b c hab hbc
  rcases hab with hab | ⟨hab, hab2⟩
  · rcases hbc with hbc | ⟨hbc, _⟩
    · exact Or.inl (lt_trans hab hbc)
    · exact Or.inl (by rw [← hbc]; exact hab)
  · rcases hbc with hbc | ⟨hbc, hbc2⟩
    · exact Or.inl (by rw [hab]; exact hbc)
    · refine Or.inr ⟨hab.trans hbc, ?_⟩
      rcases hab2 with h2 | ⟨h2, h2b⟩
      · rcases hbc2 with h3 | ⟨h3, _⟩
        · exact Or.inl (lt_trans h2 h3)
        · exact Or.inl (lt_of_lt_of_le h2 (le_of_eq h3))
      · rcases hbc2 with h3 | ⟨h3, h3b⟩
        · exact Or.inl (lt_of_le_of_lt (le_of_eq h2) h3)
        · exact Or.inr ⟨h2.trans h3, le_trans h3b h2b⟩⟩

theorem save_offers_perm (offers : List OfferRow) : (save_offers offers).Perm offers :=
  List.perm_insertionSort lastSeenDesc offers

/-! ### Claim theorems -/

/-- C1 (code evaluation at the failing input): starting from an empty store,
one discovered url "A" whose detail fetch succeeds is added as a new offer and
is nevertheless also counted in `updated_offers`, because
`OfferManager._update_database` re-reads the store's url set *after*
`add_new_offers` ran.  The specification says newly added identities are
excluded from the refresh set by construction, which would give
`updated_offers = 0` here. -/
theorem updated_offers_counts_newly_added :
    (update_offers [] "Q" ["A"] (fun u => if u = "A" then some [("k", "v")] else none) 0).2 =
      { total_found := 1, new_offers := 1, updated_offers := 1, inactive_offers := 0,
        failed_scrapes := 0 } := by
  decide

/-- C6: if parsing the pagination control fails (the `try` block of
`get_offer_pages` does not produce a page count), the page count defaults to 1
and never to 0; the function returns normally, so discovery proceeds. -/
theorem get_offer_pages_defaults_to_one (page_parse : Except Unit Nat)
    (h : ∀ n, page_parse ≠ Except.ok n) :
    get_offer_pages page_parse = 1 ∧ get_offer_pages page_parse ≠ 0 := by
  cases page_parse with
  | ok n => exact absurd rfl (h n)
  | error e => exact ⟨rfl, Nat.one_ne_zero⟩

/-- Witness for C6 at the concrete failed parse. -/
theorem get_offer_pages_defaults_to_one_witness :
    get_offer_pages (Except.error ()) = 1 ∧ get_offer_pages (Except.error ()) ≠ 0 :=
  get_offer_pages_defaults_to_one (Except.error ()) (fun _ h => Except.noConfusion h)

/-- C7 (counterexample): `_generate_page_urls` does not leave the rest of the
query intact when stripping the page parameter: for the search url
`u?a=1&page=2&b=3` the parameter `b=3` (present in the input) is lost from
every generated page url, because `split("&page=")[0]` discards everything
after the page parameter. -/
theorem generate_page_urls_drops_tail :
    generate_page_urls "u?a=1&page=2&b=3" 1 = ["u?a=1&page=1"] ∧
    strHasSub "u?a=1&page=2&b=3" "b=3" = true ∧
    strHasSub "u?a=1&page=1" "b=3" = false := by
  decide

/-- C7 (amended): for every search url and page count `P`, discovery
constructs exactly `P` page urls numbered 1..P, appending the page-number
parameter to the base url obtained by truncating the search url at its first
page-number parameter (discarding that parameter and everything after it). -/
theorem generate_page_urls_spec (search_url : String) (num_pages : Nat) :
    (generate_page_urls search_url num_pages).length = num_pages ∧
    ∀ i, i < num_pages →
      (generate_page_urls search_url num_pages).getD i "" =
        mkPageUrl (pageBaseUrl search_url) (i + 1) := by
  constructor
  · simp [generate_page_urls]
  · intro i hi
    have hlen : i < (generate_page_urls search_url num_pages).length := by
      simpa [generate_page_urls] using hi
    rw [List.getD_eq_getElem _ _ hlen]
    simp [generate_page_urls]

/-- Witness for C7 (amended) at a concrete url and page index. -/
theorem generate_page_urls_spec_witness :
    (generate_page_urls "u?a=1" 2).length = 2 ∧
    (generate_page_urls "u?a=1" 2).getD 1 "" = "u?a=1&page=2" :=
  ⟨(generate_page_urls_spec "u?a=1" 2).1,
   ((generate_page_urls_spec "u?a=1" 2).2 1 (by decide)).trans (by decide)⟩

/-- C8: `add_new_offers` does not deduplicate within its input batch: a batch
holding two records with the same url "U", absent from the (empty) store,
appends both rows and reports 2 added, leaving two records for "U". -/
theorem add_new_offers_keeps_batch_duplicates :
    (add_new_offers [] [⟨"U", [("k", "v")]⟩, ⟨"U", [("k", "w")]⟩] "Q" 0).2 = 2 ∧
    ((add_new_offers [] [⟨"U", [("k", "v")]⟩, ⟨"U", [("k", "w")]⟩] "Q" 0).1.filter
        (fun r => decide (r.url = "U"))).length = 2 := by
  decide

/-- C10: `load_offers` never raises: a missing backing file, or a read that
fails for any reason, yields the empty frame, which has zero rows and all the
required lifecycle columns. -/
theorem load_offers_tolerates_missing_or_corrupt (read_result : Except Unit RawFrame)
    (now : Nat) :
    load_offers false read_result now = create_empty_dataframe ∧
    load_offers true (Except.error ()) now = create_empty_dataframe ∧
    create_empty_dataframe.rows = [] ∧
    required_columns.all (fun c => create_empty_dataframe.columns.contains c) = true := by
  refine ⟨rfl, rfl, rfl, by decide⟩

/-- C5: `Scraper.scrape` returns one slot per input url in input order; the
i-th slot is the value of the unit of work at the i-th url, or `none` when
that unit of work raised; the exception never escapes, and one future per
input url is submitted to the pool. -/
theorem scrape_isolates_failures {α : Type} (work : String → Except Unit α)
    (urls : List String) :
    (Scraper.scrape work urls).results.length = urls.length ∧
    (∀ i, i < urls.length →
      (Scraper.scrape work urls).results.getD i none = runWork work (urls.getD i "")) ∧
    (Scraper.scrape work urls).attempts = urls := by
  refine ⟨by simp [Scraper.scrape], ?_, rfl⟩
  intro i hi
  have hlen : i < ((Scraper.scrape work urls).results).length := by
    simpa [Scraper.scrape] using hi
  rw [List.getD_eq_getElem _ _ hlen, List.getD_eq_getElem _ _ hi]
  simp [Scraper.scrape]

/-- The concrete unit of work used in the C5 witness: raises on "bad". -/
def c5work : String → Except Unit Nat :=
  fun u => if u = "bad" then Except.error () else Except.ok u.length

/-- Witness for C5 on a two-url batch whose second unit of work raises. -/
theorem scrape_isolates_failures_witness :
    (Scraper.scrape c5work ["ok", "bad"]).results.length = 2 ∧
    (Scraper.scrape c5work ["ok", "bad"]).results.getD 0 none = some 2 ∧
    (Scraper.scrape c5work ["ok", "bad"]).results.getD 1 none = none ∧
    (Scraper.scrape c5work ["ok", "bad"]).attempts = ["ok", "bad"] := by
  have h := scrape_isolates_failures c5work ["ok", "bad"]
  refine ⟨h.1, ?_, ?_, h.2.2⟩
  · rw [h.2.1 0 (by decide)]; decide
  · rw [h.2.1 1 (by decide)]; decide

/-- The store used in the C3 counterexample: two rows share the url "U", one
recorded under query "B", one under query "Q". -/
def dfC3 : List OfferRow :=
  [⟨"U", 0, 1, true, "B", []⟩, ⟨"U", 0, 2, true, "Q", []⟩]

/-- C3 (counterexample): a `mark_inactive` run for query "Q" flips the record
whose `search_url` is "B" (it shares its url with a record of query "Q"): the
"B" record goes from `is_active = true`, `last_seen = 1` to
`is_active = false`, `last_seen = 7`.  The claim says a record whose source
query is not "Q" is never changed. -/
theorem mark_inactive_touches_other_query_record :
    (mark_inactive dfC3 [] "Q" 7).1.filter (fun r => decide (r.search_url = "B")) =
      [⟨"U", 0, 7, false, "B", []⟩] ∧
    dfC3.filter (fun r => decide (r.search_url = "B")) = [⟨"U", 0, 1, true, "B", []⟩] := by
  decide

/-- C3 (amended): `mark_inactive` for query `q` rewrites exactly the rows
whose url lies in `missing_urls_for` (urls previously recorded for `q` and
absent from the observed list) and touches nothing else; consequently a row
is only ever changed when some row with the same url was recorded for `q` —
in a store with at most one row per url, rows of other queries are untouched. -/
theorem mark_inactive_frame (offers : List OfferRow) (offer_urls : List String)
    (q : String) (now : Nat) :
    (mark_inactive offers offer_urls q now).1.Perm
      (offers.map (fun r =>
        if r.url ∈ missing_urls_for offers offer_urls q then
          { r with is_active := false, last_seen := now } else r)) ∧
    ∀ r ∈ offers, (∀ r2 ∈ offers, r2.url = r.url → r2.search_url ≠ q) →
      (if r.url ∈ missing_urls_for offers offer_urls q then
          { r with is_active := false, last_seen := now } else r) = r := by
  constructor
  · by_cases h : (missing_urls_for offers offer_urls q).isEmpty = true
    · have hnil : missing_urls_for offers offer_urls q = [] := List.isEmpty_iff.mp h
      simp only [mark_inactive, h, if_true, hnil, List.not_mem_nil, if_false]
      exact List.Perm.of_eq (by simp)
    · simp only [mark_inactive, h, if_false]
      exact save_offers_perm _
  · intro r hr hscope
    have hnot : r.url ∉ missing_urls_for offers offer_urls q := by
      intro hmem
      have hprev := (List.mem_filter.mp hmem).1
      simp only [get_urls_for_search_url, List.mem_dedup, List.mem_map,
        List.mem_filter, decide_eq_true_eq] at hprev
      rcases hprev with ⟨r2, ⟨hr2mem, hr2q⟩, hr2url⟩
      exact hscope r2 hr2mem hr2url hr2q
    rw [if_neg hnot]

/-- The store used in the C3 witness: two distinct urls from two queries. -/
def dfC3w : List OfferRow :=
  [⟨"u1", 0, 1, true, "q1", []⟩, ⟨"u2", 0, 1, true, "q2", []⟩]

/-- Witness for C3 (amended): on a concrete two-query store, a run for "q1"
observing nothing leaves the "q2" record's row transformer the identity. -/
theorem mark_inactive_frame_witness :
    (mark_inactive dfC3w [] "q1" 9).1.Perm
      (dfC3w.map (fun r =>
        if r.url ∈ missing_urls_for dfC3w [] "q1" then
          { r with is_active := false, last_seen := 9 } else r)) ∧
    (if (⟨"u2", 0, 1, true, "q2", []⟩ : OfferRow).url ∈ missing_urls_for dfC3w [] "q1" then
        { (⟨"u2", 0, 1, true, "q2", []⟩ : OfferRow) with is_active := false, last_seen := 9 }
      else (⟨"u2", 0, 1, true, "q2", []⟩ : OfferRow)) = ⟨"u2", 0, 1, true, "q2", []⟩ := by
  refine ⟨(mark_inactive_frame dfC3w [] "q1" 9).1,
    (mark_inactive_frame dfC3w [] "q1" 9).2 ⟨"u2", 0, 1, true, "q2", []⟩ (by decide)
      (by decide)⟩

/-- The sum form of the C9 counting fact: successful truthy scrapes plus
falsy slots (raised or empty mapping) partition the link list. -/
theorem scrape_offers_length (links : List String)
    (fetch : String → Option (List (String × String))) :
    (scrape_offers links fetch).length +
      (links.filter (fun u => decide (fetch u = none ∨ fetch u = some []))).length =
      links.length := by
  induction links with
  | nil => rfl
  | cons u ls ih =>
    rcases hf : fetch u with _ | d
    · have hp : (decide (fetch u = none ∨ fetch u = some []) = true) := by simp [hf]
      have hs : scrape_offers (u :: ls) fetch = scrape_offers ls fetch := by
        simp [scrape_offers, List.filterMap_cons, hf]
      rw [hs, List.filter_cons, if_pos hp, List.length_cons, List.length_cons]
      omega
    · by_cases hd : d.isEmpty = true
      · have hdnil : d = [] := List.isEmpty_iff.mp hd
        have hp : (decide (fetch u = none ∨ fetch u = some []) = true) := by
          simp [hf, hdnil]
        have hs : scrape_offers (u :: ls) fetch = scrape_offers ls fetch := by
          simp [scrape_offers, List.filterMap_cons, hf, hdnil]
        rw [hs, List.filter_cons, if_pos hp, List.length_cons, List.length_cons]
        omega
      · have hdne : ¬ d = [] := by
          intro hnil; rw [hnil] at hd; exact hd rfl
        have hp : (decide (fetch u = none ∨ fetch u = some []) = false) := by
          simp [hf, hdne]
        have hs : scrape_offers (u :: ls) fetch =
            { url := u, attrs := d } :: scrape_offers ls fetch := by
          simp [scrape_offers, List.filterMap_cons, hf, hdne]
        rw [hs, List.filter_cons, if_neg (by simp [hp]), List.length_cons, List.length_cons]
        omega

/-- C9: a detail fetch that succeeds with an empty attribute mapping is
treated exactly like a raised fetch: every record kept by `_scrape_offers`
comes from a non-empty successful fetch (so the empty one is not added), and
the `failed_scrapes` difference counts exactly the raised-or-empty slots. -/
theorem empty_scrape_counted_as_failure (links : List String)
    (fetch : String → Option (List (String × String))) :
    (∀ o ∈ scrape_offers links fetch, ∃ d, fetch o.url = some d ∧ d ≠ []) ∧
    links.length - (scrape_offers links fetch).length =
      (links.filter (fun u => decide (fetch u = none ∨ fetch u = some []))).length := by
  constructor
  · intro o ho
    rcases List.mem_filterMap.mp ho with ⟨u, _, hfu⟩
    rcases hf : fetch u with _ | d
    · rw [hf] at hfu; exact absurd hfu (by simp)
    · rw [hf] at hfu
      by_cases hd : d.isEmpty = true
      · simp [hd] at hfu
      · simp only [hd, if_false] at hfu
        have ho2 : o = { url := u, attrs := d } := (Option.some_injective _ hfu).symm
        refine ⟨d, ?_, ?_⟩
        · rw [ho2]; exact hf
        · intro hnil; rw [hnil] at hd; exact hd rfl
  · have h := scrape_offers_length links fetch
    omega

/-- The concrete fetch used in the C9 witness: "a" succeeds with attributes,
"b" succeeds with an empty mapping, everything else raises. -/
def c9fetch : String → Option (List (String × String)) :=
  fun u => if u = "a" then some [("k", "v")] else if u = "b" then some [] else none

/-- Witness for C9 on a three-link batch. -/
theorem empty_scrape_counted_as_failure_witness :
    (∃ d, c9fetch "a" = some d ∧ d ≠ []) ∧
    ["a", "b", "c"].length - (scrape_offers ["a", "b", "c"] c9fetch).length =
      (["a", "b", "c"].filter
        (fun u => decide (c9fetch u = none ∨ c9fetch u = some []))).length := by
  refine ⟨?_, (empty_scrape_counted_as_failure ["a", "b", "c"] c9fetch).2⟩
  have h := (empty_scrape_counted_as_failure ["a", "b", "c"] c9fetch).1
    ⟨"a", [("k", "v")]⟩ (by decide)
  simpa using h

/-! ### Lemmas about `remove_duplicates` (claim C2) -/

theorem dupLE_refl (a : OfferRow) : dupLE a a :=
  Or.inr ⟨rfl, Or.inr ⟨rfl, le_refl _⟩⟩

theorem dropDups_sublist (l : List OfferRow) : ∀ seen, (dropDupsByUrl l seen).Sublist l := by
  induction l with
  | nil => intro seen; exact List.Sublist.refl _
  | cons r rest ih =>
    intro seen
    by_cases h : r.url ∈ seen
    · simp only [dropDupsByUrl, if_pos h]
      exact (ih seen).cons r
    · simp only [dropDupsByUrl, if_neg h]
      exact (ih (r.url :: seen)).cons₂ r

theorem mem_dropDups_url_not_seen (l : List OfferRow) :
    ∀ seen r', r' ∈ dropDupsByUrl l seen → r'.url ∉ seen := by
  induction l with
  | nil => intro seen r' h; simp [dropDupsByUrl] at h
  | cons r rest ih =>
    intro seen r' h
    by_cases hc : r.url ∈ seen
    · simp only [dropDupsByUrl, if_pos hc] at h
      exact ih seen r' h
    · simp only [dropDupsByUrl, if_neg hc] at h
      rcases List.mem_cons.mp h with rfl | h2
      · exact hc
      · exact fun hs => ih (r.url :: seen) r' h2 (List.mem_cons_of_mem _ hs)

theorem dropDups_filter_of_seen (l : List OfferRow) (seen : List String) (u : String)
    (hu : u ∈ seen) :
    (dropDupsByUrl l seen).filter (fun r => decide (r.url = u)) = [] := by
  rw [List.filter_eq_nil_iff]
  intro r' hr' hdec
  exact mem_dropDups_url_not_seen l seen r' hr' (by rw [of_decide_eq_true hdec]; exact hu)

theorem dropDups_filter_le_one (l : List OfferRow) :
    ∀ seen u, ((dropDupsByUrl l seen).filter (fun r => decide (r.url = u))).length ≤ 1 := by
  induction l with
  | nil => intro seen u; simp [dropDupsByUrl]
  | cons r rest ih =>
    intro seen u
    by_cases hc : r.url ∈ seen
    · simp only [dropDupsByUrl, if_pos hc]
      exact ih seen u
    · simp only [dropDupsByUrl, if_neg hc]
      rw [List.filter_cons]
      by_cases he : r.url = u
      · rw [if_pos (by simp [he])]
        rw [dropDups_filter_of_seen rest (r.url :: seen) u
          (by rw [← he]; exact List.mem_cons_self _ _)]
        simp
      · rw [if_neg (by simp [he])]
        exact ih (r.url :: seen) u

theorem dropDups_first_best (l : List OfferRow) :
    ∀ seen, l.Pairwise dupLE →
      ∀ r' ∈ dropDupsByUrl l seen, ∀ r ∈ l, r.url = r'.url → dupLE r' r := by
  induction l with
  | nil => intro seen _ r' h; simp [dropDupsByUrl] at h
  | cons x rest ih =>
    intro seen hpw r' hr' r hr hurl
    have hx := (List.pairwise_cons.mp hpw).1
    have hrest := (List.pairwise_cons.mp hpw).2
    by_cases hc : x.url ∈ seen
    · simp only [dropDupsByUrl, if_pos hc] at hr'
      rcases List.mem_cons.mp hr with rfl | hr2
      · exact absurd (hurl ▸ hc) (mem_dropDups_url_not_seen rest seen r' hr')
      · exact ih seen hrest r' hr' r hr2 hurl
    · simp only [dropDupsByUrl, if_neg hc] at hr'
      rcases List.mem_cons.mp hr' with rfl | hr'2
      · rcases List.mem_cons.mp hr with rfl | hr2
        · exact dupLE_refl r
        · exact hx r hr2
      · have hne : r'.url ∉ x.url :: seen := mem_dropDups_url_not_seen rest _ r' hr'2
        rcases List.mem_cons.mp hr with rfl | hr2
        · exact absurd (by rw [← hurl]; exact List.mem_cons_self _ _) hne
        · exact ih (x.url :: seen) hrest r' hr'2 r hr2 hurl

theorem dupLE_same_url_pref {r' r : OfferRow} (h : dupLE r' r) (hurl : r.url = r'.url) :
    (r.is_active = true → r'.is_active = true) ∧
    (r.is_active = r'.is_active → r.last_seen ≤ r'.last_seen) := by
  rcases h with h | ⟨_, h2⟩
  · rw [hurl] at h
    exact absurd h (lt_irrefl _)
  · constructor
    · intro hact
      have hr0 : dupRank r = 0 := by simp [dupRank, hact]
      rcases h2 with h2 | ⟨h2, _⟩
      · rw [hr0] at h2; exact absurd h2 (Nat.not_lt_zero _)
      · rw [hr0] at h2
        by_cases hb : r'.is_active = true
        · exact hb
        · exfalso
          have : dupRank r' = 1 := by simp [dupRank, hb]
          omega
    · intro heq
      rcases h2 with h2 | ⟨_, h3⟩
      · exfalso
        have : dupRank r = dupRank r' := by rw [dupRank, dupRank, heq]
        omega
      · exact h3

theorem rd_sorted_perm (offers : List OfferRow) : (rd_sorted offers).Perm offers :=
  List.perm_insertionSort dupLE offers

theorem rd_final_perm_dedup (offers : List OfferRow) : (rd_final offers).Perm (rd_dedup offers) :=
  List.perm_insertionSort lastSeenDesc (rd_dedup offers)

theorem rd_dedup_length_le (offers : List OfferRow) : (rd_dedup offers).length ≤ offers.length :=
  le_trans (List.Sublist.length_le (dropDups_sublist (rd_sorted offers) []))
    (le_of_eq (rd_sorted_perm offers).length_eq)

theorem mem_rd_dedup_imp (offers : List OfferRow) {r' : OfferRow}
    (h : r' ∈ rd_dedup offers) : r' ∈ offers :=
  (rd_sorted_perm offers).mem_iff.mp ((dropDups_sublist (rd_sorted offers) []).subset h)

theorem rd_dedup_pref (offers : List OfferRow) {r' r : OfferRow}
    (hr' : r' ∈ rd_dedup offers) (hr : r ∈ offers) (hurl : r.url = r'.url) : dupLE r' r :=
  dropDups_first_best (rd_sorted offers) []
    (List.sorted_insertionSort dupLE offers) r' hr' r ((rd_sorted_perm offers).mem_iff.mpr hr) hurl

theorem rd_dedup_filter_le_one (offers : List OfferRow) (u : String) :
    ((rd_dedup offers).filter (fun r => decide (r.url = u))).length ≤ 1 :=
  dropDups_filter_le_one (rd_sorted offers) [] u

theorem remove_duplicates_pos (offers : List OfferRow) (h1 : ¬ offers.isEmpty = true)
    (h2 : 0 < offers.length - (rd_final offers).length) :
    remove_duplicates offers =
      (save_offers (rd_final offers), offers.length - (rd_final offers).length) := by
  unfold remove_duplicates
  rw [if_neg h1, if_pos h2]

theorem remove_duplicates_zero (offers : List OfferRow) (h1 : ¬ offers.isEmpty = true)
    (h2 : ¬ 0 < offers.length - (rd_final offers).length) :
    remove_duplicates offers = (offers, offers.length - (rd_final offers).length) := by
  unfold remove_duplicates
  rw [if_neg h1, if_neg h2]

/-- C2: after `remove_duplicates` every surviving row came from the store, at
most one row per url remains, the survivor beats every same-url row of the
original store (active preferred over inactive, and most recent `last_seen`
among rows of equal activity), and the returned count is the number of rows
removed. -/
theorem remove_duplicates_spec (offers : List OfferRow) :
    (∀ r' ∈ (remove_duplicates offers).1, r' ∈ offers) ∧
    (∀ u, (((remove_duplicates offers).1).filter (fun r => decide (r.url = u))).length ≤ 1) ∧
    (∀ r' ∈ (remove_duplicates offers).1, ∀ r ∈ offers, r.url = r'.url →
      (r.is_active = true → r'.is_active = true) ∧
      (r.is_active = r'.is_active → r.last_seen ≤ r'.last_seen)) ∧
    (remove_duplicates offers).2 = offers.length - ((remove_duplicates offers).1).length := by
  by_cases h1 : offers.isEmpty = true
  · have hnil : offers = [] := List.isEmpty_iff.mp h1
    subst hnil
    refine ⟨?_, ?_, ?_, ?_⟩ <;> simp [remove_duplicates]
  · by_cases h2 : 0 < offers.length - (rd_final offers).length
    · rw [remove_duplicates_pos offers h1 h2]
      have hmemsave : ∀ r' : OfferRow,
          r' ∈ save_offers (rd_final offers) ↔ r' ∈ rd_dedup offers := fun r' =>
        Iff.trans (save_offers_perm _).mem_iff (rd_final_perm_dedup offers).mem_iff
      refine ⟨?_, ?_, ?_, ?_⟩
      · intro r' hr'
        exact mem_rd_dedup_imp offers ((hmemsave r').mp hr')
      · intro u
        have e1 := (List.Perm.filter (fun r => decide (r.url = u))
          (save_offers_perm (rd_final offers))).length_eq
        have e2 := (List.Perm.filter (fun r => decide (r.url = u))
          (rd_final_perm_dedup offers)).length_eq
        rw [e1, e2]
        exact rd_dedup_filter_le_one offers u
      · intro r' hr' r hr hurl
        exact dupLE_same_url_pref (rd_dedup_pref offers ((hmemsave r').mp hr') hr hurl) hurl
      · have e1 : (save_offers (rd_final offers)).length = (rd_final offers).length :=
          (save_offers_perm _).length_eq
        rw [e1]
    · rw [remove_duplicates_zero offers h1 h2]
      have hle : (rd_final offers).length ≤ offers.length := by
        rw [(rd_final_perm_dedup offers).length_eq]
        exact rd_dedup_length_le offers
      have hge : offers.length ≤ (rd_final offers).length := by
        omega
      have hlen2 : (rd_dedup offers).length = (rd_sorted offers).length := by
        have := (rd_final_perm_dedup offers).length_eq
        have := (rd_sorted_perm offers).length_eq
        omega
      have heq : rd_dedup offers = rd_sorted offers :=
        List.Sublist.eq_of_length (dropDups_sublist (rd_sorted offers) []) hlen2
      have hmem : ∀ r' : OfferRow, r' ∈ offers → r' ∈ rd_dedup offers := by
        intro r' hr'
        rw [heq]
        exact (rd_sorted_perm offers).mem_iff.mpr hr'
      refine ⟨fun r' hr' => hr', ?_, ?_, ?_⟩
      · intro u
        have e1 := (List.Perm.filter (fun r => decide (r.url = u))
          (rd_sorted_perm offers)).length_eq
        rw [← e1, ← heq]
        exact rd_dedup_filter_le_one offers u
      · intro r' hr' r hr hurl
        exact dupLE_same_url_pref (rd_dedup_pref offers (hmem r' hr') hr hurl) hurl
      · show offers.length - (rd_final offers).length = offers.length - offers.length
        omega

/-- The store used in the C2 witness: two rows for "U" (an inactive one with
the later `last_seen` and an active one) plus one row for "V". -/
def dfC2 : List OfferRow :=
  [⟨"U", 0, 5, false, "Q", []⟩, ⟨"U", 0, 3, true, "Q", []⟩, ⟨"V", 0, 9, true, "Q", []⟩]

/-- Witness for C2 on a concrete store with a duplicate url. -/
theorem remove_duplicates_spec_witness :
    ((⟨"U", 0, 3, true, "Q", []⟩ : OfferRow) ∈ dfC2) ∧
    (((remove_duplicates dfC2).1).filter (fun r => decide (r.url = "U"))).length ≤ 1 ∧
    ((⟨"U", 0, 5, false, "Q", []⟩ : OfferRow).is_active =
        (⟨"U", 0, 3, true, "Q", []⟩ : OfferRow).is_active →
      (⟨"U", 0, 5, false, "Q", []⟩ : OfferRow).last_seen ≤
        (⟨"U", 0, 3, true, "Q", []⟩ : OfferRow).last_seen) ∧
    (remove_duplicates dfC2).2 = dfC2.length - ((remove_duplicates dfC2).1).length := by
  have h := remove_duplicates_spec dfC2
  refine ⟨by decide, h.2.1 "U", ?_, h.2.2.2⟩
  exact ((h.2.2.1 ⟨"U", 0, 3, true, "Q", []⟩ (by decide) ⟨"U", 0, 5, false, "Q", []⟩
    (by decide) (by decide)).2)

/-! ### Lemmas about the synchronization pipeline (claim C4) -/

theorem map_step_perm (df : List OfferRow) (step : OfferRow → OfferRow)
    {β : Type} (f : OfferRow → β) (hstep : ∀ r, f (step r) = f r) :
    ((save_offers (df.map step)).map f).Perm (df.map f) := by
  refine ((save_offers_perm _).map f).trans ?_
  rw [List.map_map]
  exact List.Perm.of_eq (List.map_congr_left (fun r _ => hstep r))

theorem update_existing_map_perm {β : Type} (f : OfferRow → β)
    (hstep : ∀ (r : OfferRow) (n : Nat), f { r with last_seen := n, is_active := true } = f r)
    (df : List OfferRow) (urls : List String) (now : Nat) :
    (((update_existing_offers df urls now).1).map f).Perm (df.map f) := by
  by_cases h : urls.isEmpty = true
  · simp only [update_existing_offers, h, if_true]
    exact List.Perm.refl _
  · simp only [update_existing_offers, h, if_false]
    refine map_step_perm df _ f ?_
    intro r
    by_cases hm : r.url ∈ urls
    · rw [if_pos hm]; exact hstep r now
    · rw [if_neg hm]

theorem mark_inactive_map_perm {β : Type} (f : OfferRow → β)
    (hstep : ∀ (r : OfferRow) (n : Nat), f { r with is_active := false, last_seen := n } = f r)
    (df : List OfferRow) (urls : List String) (q : String) (now : Nat) :
    (((mark_inactive df urls q now).1).map f).Perm (df.map f) := by
  by_cases h : (missing_urls_for df urls q).isEmpty = true
  · simp only [mark_inactive, h, if_true]
    exact List.Perm.refl _
  · simp only [mark_inactive, h, if_false]
    refine map_step_perm df _ f ?_
    intro r
    by_cases hm : r.url ∈ missing_urls_for df urls q
    · rw [if_pos hm]; exact hstep r now
    · rw [if_neg hm]

theorem ud_after_update_map_perm {β : Type} (f : OfferRow → β)
    (hstep : ∀ (r : OfferRow) (n : Nat), f { r with last_seen := n, is_active := true } = f r)
    (df : List OfferRow) (links : List String) (now : Nat) :
    (((ud_after_update df links now).1).map f).Perm (df.map f) := by
  by_cases h : (ud_current_existing df links).isEmpty = true
  · simp only [ud_after_update, h, if_true]
    exact List.Perm.refl _
  · simp only [ud_after_update, h, if_false]
    exact update_existing_map_perm f hstep df _ now

theorem add_new_offers_mono (df : List OfferRow) (batch : List NewOffer) (q : String)
    (now : Nat) {u : String} (hu : u ∈ df.map (fun r => r.url)) :
    u ∈ ((add_new_offers df batch q now).1).map (fun r => r.url) := by
  unfold add_new_offers
  by_cases hb : batch.isEmpty = true
  · rw [if_pos hb]; exact hu
  · rw [if_neg hb]
    by_cases ht : (truly_new_urls_for df batch).isEmpty = true
    · rw [if_pos ht]; exact hu
    · rw [if_neg ht]
      rw [List.Perm.mem_iff ((save_offers_perm
        (df ++ stamped_new_offers df batch q now)).map (fun r => r.url))]
      rw [List.map_append, List.mem_append]
      exact Or.inl hu

theorem add_new_offers_new (df : List OfferRow) (batch : List NewOffer) (q : String)
    (now : Nat) {o : NewOffer} (ho : o ∈ batch)
    (hnot : o.url ∉ df.map (fun r => r.url)) :
    o.url ∈ ((add_new_offers df batch q now).1).map (fun r => r.url) := by
  have hmem : o.url ∈ truly_new_urls_for df batch := by
    refine List.mem_filter.mpr ⟨List.mem_dedup.mpr (List.mem_map.mpr ⟨o, ho, rfl⟩), ?_⟩
    simp only [decide_eq_true_eq]
    intro hc
    simp only [get_all_urls, List.mem_dedup] at hc
    exact hnot hc
  have hb : ¬ batch.isEmpty = true := by
    intro h; rw [List.isEmpty_iff.mp h] at ho; simp at ho
  have ht : ¬ (truly_new_urls_for df batch).isEmpty = true := by
    intro h; rw [List.isEmpty_iff.mp h] at hmem; simp at hmem
  unfold add_new_offers
  rw [if_neg hb, if_neg ht]
  rw [List.Perm.mem_iff ((save_offers_perm
    (df ++ stamped_new_offers df batch q now)).map (fun r => r.url))]
  rw [List.map_append, List.mem_append]
  right
  refine List.mem_map.mpr ⟨stampNewOffer o q now, ?_, rfl⟩
  exact List.mem_map.mpr ⟨o, List.mem_filter.mpr ⟨ho, by simp [hmem]⟩, rfl⟩

theorem ud_after_add_mono (df : List OfferRow) (scraped : List NewOffer) (q : String)
    (now : Nat) {u : String} (hu : u ∈ df.map (fun r => r.url)) :
    u ∈ ((ud_after_add df scraped q now).1).map (fun r => r.url) := by
  unfold ud_after_add
  by_cases h : scraped.isEmpty = true
  · rw [if_pos h]; exact hu
  · rw [if_neg h]; exact add_new_offers_mono df scraped q now hu

theorem update_database_fst (df : List OfferRow) (q : String) (links : List String)
    (scraped : List NewOffer) (newlinks : List String) (now : Nat) :
    (update_database df q links scraped newlinks now).1 =
      (mark_inactive ((ud_after_update ((ud_after_add df scraped q now).1) links now).1)
        links q now).1 := rfl

theorem update_database_new_offers_eq (df : List OfferRow) (q : String)
    (links : List String) (scraped : List NewOffer) (newlinks : List String) (now : Nat) :
    (update_database df q links scraped newlinks now).2.new_offers =
      (ud_after_add df scraped q now).2 := rfl

theorem update_offers_eq (df : List OfferRow) (q : String) (links : List String)
    (fetch : String → Option (List (String × String))) (now : Nat) :
    update_offers df q links fetch now =
      update_database df q links
        (if (links.filter (fun u => decide (u ∉ get_all_urls df))).isEmpty then []
         else scrape_offers (links.filter (fun u => decide (u ∉ get_all_urls df))) fetch)
        (links.filter (fun u => decide (u ∉ get_all_urls df))) now := rfl

theorem update_offers_covers (df : List OfferRow) (q : String) (links : List String)
    (fetch : String → Option (List (String × String))) (now : Nat)
    (hfetch : ∀ u ∈ links, ∃ d, fetch u = some d ∧ d ≠ []) :
    ∀ u ∈ links, u ∈ ((update_offers df q links fetch now).1).map (fun r => r.url) := by
  intro u hu
  rw [update_offers_eq, update_database_fst]
  rw [List.Perm.mem_iff (mark_inactive_map_perm (fun r => r.url) (fun r n => rfl) _ _ _ _)]
  rw [List.Perm.mem_iff (ud_after_update_map_perm (fun r => r.url) (fun r n => rfl) _ _ _)]
  by_cases hdf : u ∈ df.map (fun r => r.url)
  · exact ud_after_add_mono df _ q now hdf
  · have hul : u ∈ links.filter (fun u' => decide (u' ∉ get_all_urls df)) := by
      refine List.mem_filter.mpr ⟨hu, ?_⟩
      simp only [decide_eq_true_eq, get_all_urls, List.mem_dedup]
      exact hdf
    rcases hfetch u hu with ⟨d, hd, hdne⟩
    have ho : (⟨u, d⟩ : NewOffer) ∈
        scrape_offers (links.filter (fun u' => decide (u' ∉ get_all_urls df))) fetch := by
      refine List.mem_filterMap.mpr ⟨u, hul, ?_⟩
      rw [hd]
      simp [hdne]
    have hne : ¬ (links.filter (fun u' => decide (u' ∉ get_all_urls df))).isEmpty = true := by
      intro h; rw [List.isEmpty_iff.mp h] at hul; simp at hul
    rw [if_neg hne]
    have hsne : ¬ (scrape_offers (links.filter
        (fun u' => decide (u' ∉ get_all_urls df))) fetch).isEmpty = true := by
      intro h; rw [List.isEmpty_iff.mp h] at ho; simp at ho
    have hadd : (ud_after_add df (scrape_offers (links.filter
        (fun u' => decide (u' ∉ get_all_urls df))) fetch) q now).1 =
        (add_new_offers df (scrape_offers (links.filter
          (fun u' => decide (u' ∉ get_all_urls df))) fetch) q now).1 := by
      unfold ud_after_add; rw [if_neg hsne]
    rw [hadd]
    exact add_new_offers_new df _ q now ho hdf

/-- C4: running `update_offers` twice with the same discovery result and a
detail fetch that succeeds with a non-empty mapping on every discovered link
yields `new_offers = 0` on the second run, and the second run leaves the
(url, first_seen) row multiset of the store unchanged. -/
theorem update_offers_idempotent (df : List OfferRow) (q : String) (links : List String)
    (fetch : String → Option (List (String × String))) (now1 now2 : Nat)
    (hfetch : ∀ u ∈ links, ∃ d, fetch u = some d ∧ d ≠ []) :
    (update_offers (update_offers df q links fetch now1).1 q links fetch now2).2.new_offers
      = 0 ∧
    ((update_offers (update_offers df q links fetch now1).1 q links fetch now2).1.map
        (fun r => (r.url, r.first_seen))).Perm
      ((update_offers df q links fetch now1).1.map (fun r => (r.url, r.first_seen))) := by
  have hcov := update_offers_covers df q links fetch now1 hfetch
  have hnl : links.filter (fun u =>
      decide (u ∉ get_all_urls (update_offers df q links fetch now1).1)) = [] := by
    rw [List.filter_eq_nil_iff]
    intro u hu
    simp only [decide_eq_true_eq, not_not, get_all_urls, List.mem_dedup]
    exact hcov u hu
  constructor
  · rw [update_offers_eq (update_offers df q links fetch now1).1 q links fetch now2]
    rw [update_database_new_offers_eq, hnl]
    rfl
  · rw [update_offers_eq (update_offers df q links fetch now1).1 q links fetch now2]
    rw [update_database_fst, hnl]
    refine (mark_inactive_map_perm (fun r => (r.url, r.first_seen))
      (fun r n => rfl) _ _ _ _).trans ?_
    refine (ud_after_update_map_perm (fun r => (r.url, r.first_seen))
      (fun r n => rfl) _ _ _).trans ?_
    exact List.Perm.refl _

/-- The concrete fetch used in the C4 witness. -/
def c4fetch : String → Option (List (String × String)) :=
  fun u => if u = "A" then some [("k", "v")] else none

/-- Witness for C4 on a concrete one-link discovery over an empty store. -/
theorem update_offers_idempotent_witness :
    (update_offers (update_offers [] "Q" ["A"] c4fetch 0).1 "Q" ["A"] c4fetch 1).2.new_offers
      = 0 ∧
    ((update_offers (update_offers [] "Q" ["A"] c4fetch 0).1 "Q" ["A"] c4fetch 1).1.map
        (fun r => (r.url, r.first_seen))).Perm
      ((update_offers [] "Q" ["A"] c4fetch 0).1.map (fun r => (r.url, r.first_seen))) :=
  update_offers_idempotent [] "Q" ["A"] c4fetch 0 1 (by
    intro u hu
    rw [List.mem_singleton] at hu
    subst hu
    exact ⟨[("k", "v")], by decide, by decide⟩)
